import Mathlib

/-!
Verification of the autopush-rs core against its specification.

The development shallowly embeds the Rust sources:
  * `src/autopush/src/server/dispatch.rs` — the connection dispatcher
    (`Dispatch::poll`): bytes are modelled as `Nat` (values of `u8`), the
    socket as the list of chunks successive `read_buf` calls return (an
    empty chunk is end-of-stream), and the HTTP head parser (the external
    `httparse` crate) as an arbitrary function from the buffered bytes to a
    parse status.
  * `src/autoendpoint/src/extractors/notification.rs` — notification
    construction (`Notification::from_request`, `generate_message_id`) and
    the delivery serialization (`serialize_for_delivery`).  The Fernet
    encryption and the ambient clock are parameters.
  * `src/autoendpoint/src/error.rs` — `ApiErrorKind` and its HTTP status
    mapping.
  * `src/autopush-common/src/util/mod.rs` — `b64_encode_url` and
    `b64_decode_url` over the URL-safe, no-padding base64 alphabet.
-/

/-! ## Connection dispatcher (src/autopush/src/server/dispatch.rs) -/

/-- One parsed HTTP header, as `httparse` reports it: a name and a raw
value (the value bytes are irrelevant to the dispatcher). -/
structure Header where
  name : String
  value : List Nat
deriving DecidableEq, Repr

/-- The parsed request head: optional path and the header list
(`httparse::Request` after a complete parse). -/
structure RequestHead where
  path : Option String
  headers : List Header
deriving DecidableEq, Repr

/-- Result of `httparse::Request::parse` on the buffered bytes. -/
inductive ParseStatus where
  | Complete : RequestHead → ParseStatus
  | Partial : ParseStatus
  | Error : ParseStatus
deriving DecidableEq, Repr

/-- `RequestType` from dispatch.rs. -/
inductive RequestType where
  | Websocket | Status | LogCheck | LBHeartBeat | Version
deriving DecidableEq, Repr

/-- The three ways `Dispatch::poll` fails: `"early eof"`, a propagated
`httparse` error, and `"unknown http request"`. -/
inductive DispatchError where
  | EarlyEof | ParseError | UnknownRequest
deriving DecidableEq, Repr

/-- `&str::starts_with` on the character sequences of two strings. -/
def startsWithL : List Char → List Char → Bool
  | _, [] => true
  | [], _ :: _ => false
  | c :: s, d :: p => c = d && startsWithL s p

/-- Rust's `str::starts_with`, used by the path table. -/
def starts_with (s pat : String) : Bool :=
  startsWithL s.data pat.data

/-- `req.headers.iter().any(|h| h.name == "Upgrade")`. -/
def hasUpgrade (req : RequestHead) : Bool :=
  req.headers.any (fun h => h.name = "Upgrade")

/-- The classification step of `Dispatch::poll` once a complete request
head is available (dispatch.rs lines 76–96): the `Upgrade` header check,
then the path table, then the `"unknown http request"` failure. -/
def classify (req : RequestHead) : Except DispatchError RequestType :=
  if hasUpgrade req then
    .ok .Websocket
  else
    match req.path with
    | some path =>
      if starts_with path "/status" = true ∨ path = "/__heartbeat__" then
        .ok .Status
      else if path = "/__lbheartbeat__" then .ok .LBHeartBeat
      else if path = "/__version__" then .ok .Version
      else if starts_with path "/v1/err/crit" = true then .ok .LogCheck
      else if path = "/__error__" then .ok .LogCheck
      else .error .UnknownRequest
    | none => .error .UnknownRequest

/-- Outcome of running `Dispatch::poll` to completion on a prefix of the
socket's chunks.  `Classified ty bytes rest` carries the classification,
the whole buffered byte sequence handed to `WebpushIo::new`, and the
chunks the dispatcher never read; `Pending buf` is the `NotReady` case
(the chunk list was exhausted while the head was still partial). -/
inductive DispatchOutcome where
  | Classified : RequestType → List Nat → List (List Nat) → DispatchOutcome
  | Failed : DispatchError → DispatchOutcome
  | Pending : List Nat → DispatchOutcome
deriving DecidableEq, Repr

/-- The loop of `Dispatch::poll`: read one chunk (`read_buf`), fail with
`EarlyEof` on a zero-byte read, parse the accumulated buffer, continue on
a partial parse, and classify on a complete one.  `parse` stands for the
external `httparse` parser applied to the buffer contents. -/
def dispatchAux (parse : List Nat → ParseStatus) :
    List (List Nat) → List Nat → DispatchOutcome
  | [], buf => .Pending buf
  | chunk :: rest, buf =>
    if chunk.isEmpty then .Failed .EarlyEof
    else
      match parse (buf ++ chunk) with
      | .Error => .Failed .ParseError
      | .Partial => dispatchAux parse rest (buf ++ chunk)
      | .Complete head =>
        match classify head with
        | .ok ty => .Classified ty (buf ++ chunk) rest
        | .error e => .Failed e

/-- `Dispatch::poll` starting from the empty buffer of `Dispatch::new`. -/
def dispatch (parse : List Nat → ParseStatus) (chunks : List (List Nat)) :
    DispatchOutcome :=
  dispatchAux parse chunks []

/-! ## Base64 helpers (src/autopush-common/src/util/mod.rs)

`b64_encode_url` / `b64_decode_url` wrap the `base64` crate's
`URL_SAFE_NO_PAD` engine; decoding first strips trailing `'='` characters
(`input.trim_end_matches('=')`).  Bytes are `Nat` values of `u8`.  The
engine is embedded: the URL-safe alphabet, 3-byte→4-sextet encoding with
a shortened final group and no padding, and strict decoding (unknown
character, length ≡ 1 mod 4, and non-zero trailing bits are rejected). -/

/-- `base64::DecodeError`. -/
inductive DecodeError where
  | InvalidByte | InvalidLength | InvalidLastSymbol | InvalidPadding
deriving DecidableEq, Repr

/-- The URL-safe base64 alphabet: sextet value to character. -/
def b64Char (v : Nat) : Char :=
  if v < 26 then Char.ofNat (65 + v)
  else if v < 52 then Char.ofNat (97 + (v - 26))
  else if v < 62 then Char.ofNat (48 + (v - 52))
  else if v = 62 then '-'
  else '_'

/-- The URL-safe base64 alphabet: character back to sextet value, `none`
for a character outside the alphabet (including `'='`). -/
def b64Val (c : Char) : Option Nat :=
  if 65 ≤ c.toNat ∧ c.toNat ≤ 90 then some (c.toNat - 65)
  else if 97 ≤ c.toNat ∧ c.toNat ≤ 122 then some (26 + (c.toNat - 97))
  else if 48 ≤ c.toNat ∧ c.toNat ≤ 57 then some (52 + (c.toNat - 48))
  else if c = '-' then some 62
  else if c = '_' then some 63
  else none

/-- Byte stream to sextet stream: full 3-byte groups become 4 sextets, a
final 1- or 2-byte group becomes 2 or 3 sextets (no padding). -/
def encodeSextets : List Nat → List Nat
  | [] => []
  | [b1] => [b1 / 4, b1 % 4 * 16]
  | [b1, b2] => [b1 / 4, b1 % 4 * 16 + b2 / 16, b2 % 16 * 4]
  | b1 :: b2 :: b3 :: rest =>
    b1 / 4 :: (b1 % 4 * 16 + b2 / 16) :: (b2 % 16 * 4 + b3 / 64) :: b3 % 64 ::
      encodeSextets rest

/-- Sextet stream back to bytes.  A lone trailing sextet is an invalid
length (input length ≡ 1 mod 4); a shortened final group whose unused low
bits are not zero is rejected, as the engine's strict mode does. -/
def decodeSextets : List Nat → Except DecodeError (List Nat)
  | [] => .ok []
  | [_] => .error .InvalidLength
  | [s1, s2] =>
    if s2 % 16 = 0 then .ok [s1 * 4 + s2 / 16] else .error .InvalidLastSymbol
  | [s1, s2, s3] =>
    if s3 % 4 = 0 then .ok [s1 * 4 + s2 / 16, s2 % 16 * 16 + s3 / 4]
    else .error .InvalidLastSymbol
  | s1 :: s2 :: s3 :: s4 :: rest =>
    match decodeSextets rest with
    | .error e => .error e
    | .ok tail =>
      .ok ((s1 * 4 + s2 / 16) :: (s2 % 16 * 16 + s3 / 4) :: (s3 % 4 * 64 + s4) :: tail)

/-- Map every character to its sextet value, rejecting the first
character outside the alphabet. -/
def mapVals : List Char → Except DecodeError (List Nat)
  | [] => .ok []
  | c :: cs =>
    match b64Val c with
    | none => .error .InvalidByte
    | some v =>
      match mapVals cs with
      | .error e => .error e
      | .ok vs => .ok (v :: vs)

/-- `input.trim_end_matches('=')` on the character list. -/
def trimEq (l : List Char) : List Char :=
  (l.reverse.dropWhile (fun c => c = '=')).reverse

/-- `b64_encode_url`: URL-safe, no-padding base64 encoding of a byte
vector. -/
def b64_encode_url (input : List Nat) : String :=
  String.mk ((encodeSextets input).map b64Char)

/-- `b64_decode_url`: strip trailing `'='`, then decode with the
no-padding URL-safe engine. -/
def b64_decode_url (input : String) : Except DecodeError (List Nat) :=
  match mapVals (trimEq input.data) with
  | .error e => .error e
  | .ok vs => decodeSextets vs

/-! ## Notification model (src/autoendpoint/src/extractors/notification.rs)

`Subscription` and `NotificationHeaders` live in sibling extractor
modules; only the fields this file reads are modelled.  The `MultiFernet`
encryption and the clock (`sec_since_epoch` / `ms_since_epoch`) are
external effects and enter as parameters. -/

/-- A 128-bit `Uuid` value. -/
structure Uuid where
  val : Nat
deriving DecidableEq, Repr

/-- The fields of `Subscription` that notification construction reads:
`subscription.user.uaid` and `subscription.channel_id`. -/
structure Subscription where
  user_uaid : Uuid
  channel_id : Uuid
deriving DecidableEq, Repr

/-- The fields of `NotificationHeaders` that notification construction
and delivery serialization read: the TTL, the optional topic, and the
optional content encoding. -/
structure NotificationHeaders where
  ttl : Int
  topic : Option String
  encoding : Option String
deriving DecidableEq, Repr

/-- `MessageId` from the message_id extractor: the two variants built by
`generate_message_id`. -/
inductive MessageId where
  | WithTopic (uaid : Uuid) (channel_id : Uuid) (topic : String)
  | WithoutTopic (uaid : Uuid) (channel_id : Uuid) (timestamp : Nat)
deriving DecidableEq, Repr

/-- `Notification::generate_message_id`: build `MessageId::WithTopic`
when a topic is present, else `MessageId::WithoutTopic` carrying the
given timestamp, and encrypt it.  `encrypt` stands for
`MessageId::encrypt(fernet)`. -/
def generate_message_id (encrypt : MessageId → String)
    (uaid channel_id : Uuid) (topic : Option String) (timestamp : Nat) :
    String :=
  let message_id :=
    match topic with
    | some topic => MessageId.WithTopic uaid channel_id topic
    | none => MessageId.WithoutTopic uaid channel_id timestamp
  encrypt message_id

/-- The `Notification` extractor struct. -/
structure Notification where
  message_id : String
  subscription : Subscription
  headers : NotificationHeaders
  timestamp : Nat
  sort_key_timestamp : Nat
  data : Option String
deriving DecidableEq, Repr

/-- The construction core of `Notification::from_request` after the
subscription, headers and raw body bytes have been extracted:
base64url-encode a non-empty body, capture the two clock readings, and
derive `message_id` from the topic or the millisecond timestamp.
`timestamp` is the `sec_since_epoch()` reading and `sort_key_timestamp`
the `ms_since_epoch()` reading taken during construction. -/
def from_request_core (encrypt : MessageId → String)
    (subscription : Subscription) (headers : NotificationHeaders)
    (raw_data : List Nat) (timestamp sort_key_timestamp : Nat) :
    Notification :=
  let data :=
    if raw_data.isEmpty then none else some (b64_encode_url raw_data)
  { message_id :=
      generate_message_id encrypt subscription.user_uaid
        subscription.channel_id headers.topic sort_key_timestamp
    subscription := subscription
    headers := headers
    timestamp := timestamp
    sort_key_timestamp := sort_key_timestamp
    data := data }

/-- A value in the delivery map (`serde_json::Value` images of the fields
inserted by `serialize_for_delivery`; the header-map conversion
`NotificationHeaders → HashMap<String, String>` lives in the headers
extractor and is kept opaque). -/
inductive DeliveryValue where
  | uuid : Uuid → DeliveryValue
  | str : String → DeliveryValue
  | int : Int → DeliveryValue
  | optStr : Option String → DeliveryValue
  | nat : Nat → DeliveryValue
  | headersObj : NotificationHeaders → DeliveryValue
deriving DecidableEq, Repr

/-- `Notification::serialize_for_delivery`: the five unconditional
insertions, then `data` and `headers` only when a payload is present.
The map is represented as its (distinct-keyed) association list in
insertion order. -/
def Notification.serialize_for_delivery (n : Notification) :
    List (String × DeliveryValue) :=
  [("channelID", .uuid n.subscription.channel_id),
   ("version", .str n.message_id),
   ("ttl", .int n.headers.ttl),
   ("topic", .optStr n.headers.topic),
   ("timestamp", .nat n.timestamp)] ++
  (match n.data with
   | some data => [("data", .str data), ("headers", .headersObj n.headers)]
   | none => [])

/-- The key set of the delivery map. -/
def deliveryKeys (n : Notification) : List String :=
  n.serialize_for_delivery.map Prod.fst

/-! ## Error taxonomy (src/autoendpoint/src/error.rs)

`ApiErrorKind` with its payloads elided where the HTTP status mapping
ignores them; `PayloadError` and `Router` delegate their status to the
wrapped error, carried here as the delegated status itself. -/

/-- `ApiErrorKind`. -/
inductive ApiErrorKind where
  | Io | Metrics | Validation | PayloadError (delegated : Nat)
  | VapidError | Router (delegated : Nat) | Jwt
  | TokenHashValidation | RegistrationSecretHash | EndpointUrl | Database
  | InvalidToken | NoUser | NoSubscription | InvalidEncryption (msg : String)
  | InvalidApiVersion | NoTTL | InvalidRouterType | InvalidRouterToken
  | InvalidMessageId | InvalidAuthentication | InvalidLocalAuth (msg : String)
  | General (msg : String) | LogCheck
deriving DecidableEq, Repr

/-- `ApiErrorKind::status`, with `actix_web::http::StatusCode` constants
as their numeric values (`BAD_REQUEST` 400, `UNAUTHORIZED` 401,
`NOT_FOUND` 404, `GONE` 410, `IM_A_TEAPOT` 418,
`INTERNAL_SERVER_ERROR` 500). -/
def ApiErrorKind.status : ApiErrorKind → Nat
  | .PayloadError delegated => delegated
  | .Router delegated => delegated
  | .Validation | .InvalidEncryption _ | .NoTTL | .InvalidRouterType
  | .InvalidRouterToken | .InvalidMessageId => 400
  | .VapidError | .Jwt | .TokenHashValidation | .InvalidAuthentication
  | .InvalidLocalAuth _ => 401
  | .InvalidToken | .InvalidApiVersion => 404
  | .NoUser | .NoSubscription => 410
  | .LogCheck => 418
  | .General _ | .Io | .Metrics | .Database | .EndpointUrl
  | .RegistrationSecretHash => 500

/-! ## Concrete instances used by the witnesses -/

/-- A deterministic stand-in for `httparse`: the head parses as `h` as
soon as at least `n` bytes are buffered, and is partial before that. -/
def constParse (h : RequestHead) (n : Nat) (bytes : List Nat) : ParseStatus :=
  if n ≤ bytes.length then .Complete h else .Partial

/-- A concrete stand-in for `MessageId::encrypt(fernet)`. -/
def demoEncrypt : MessageId → String
  | .WithTopic _ _ t => "T:" ++ t
  | .WithoutTopic _ _ ts => "N:" ++ toString ts

/-- A concrete subscription. -/
def demoSub : Subscription := ⟨⟨1⟩, ⟨2⟩⟩

/-! ## Supporting lemmas -/

/-- A two-character pattern match forces the first two characters. -/
lemma startsWithL_two (l : List Char) (c1 c2 : Char) (p : List Char) :
    startsWithL l (c1 :: c2 :: p) = true →
    ∃ rest, l = c1 :: c2 :: rest := by
  match l with
  | [] => simp [startsWithL]
  | [d] => simp [startsWithL]
  | d1 :: d2 :: rest =>
    simp only [startsWithL, Bool.and_eq_true, decide_eq_true_eq]
    rintro ⟨h1, h2, -⟩
    exact ⟨rest, by rw [h1, h2]⟩

/-- A path under `/v1/err/crit` matches none of the earlier rows of the
dispatcher's path table. -/
lemma v1_excludes (p : String) (hv : starts_with p "/v1/err/crit" = true) :
    starts_with p "/status" = false ∧ p ≠ "/__heartbeat__" ∧
    p ≠ "/__lbheartbeat__" ∧ p ≠ "/__version__" := by
  refine ⟨?_, ?_, ?_, ?_⟩
  · unfold starts_with at hv ⊢
    obtain ⟨rest, hl⟩ := startsWithL_two p.data '/' 'v' _ hv
    rw [hl]
    simp [startsWithL]
  · rintro rfl; exact absurd hv (by decide)
  · rintro rfl; exact absurd hv (by decide)
  · rintro rfl; exact absurd hv (by decide)

/-- A run over a single chunk that parses completely reduces to the
classification of the parsed head. -/
lemma dispatch_single (parse : List Nat → ParseStatus) (bytes : List Nat)
    (h : RequestHead) (hne : bytes ≠ []) (hparse : parse bytes = .Complete h) :
    dispatch parse [bytes] =
      (match classify h with
       | .ok ty => .Classified ty bytes []
       | .error e => .Failed e) := by
  have hemp : bytes.isEmpty = false := by simp [hne]
  simp [dispatch, dispatchAux, hemp, hparse]

/-- With no `Upgrade` header and a present path, `classify` is exactly
the path table. -/
lemma classify_no_upgrade (h : RequestHead) (p : String)
    (hup : hasUpgrade h = false) (hpath : h.path = some p) :
    classify h =
      (if starts_with p "/status" = true ∨ p = "/__heartbeat__" then
        .ok .Status
       else if p = "/__lbheartbeat__" then .ok .LBHeartBeat
       else if p = "/__version__" then .ok .Version
       else if starts_with p "/v1/err/crit" = true then .ok .LogCheck
       else if p = "/__error__" then .ok .LogCheck
       else .error .UnknownRequest) := by
  rw [classify, hup, hpath]
  simp

/-- While every accumulated buffer still parses as partial, a zero-byte
read fails the dispatcher with `EarlyEof` from any intermediate state. -/
lemma early_eof_aux (parse : List Nat → ParseStatus) :
    ∀ (pre : List (List Nat)) (rest : List (List Nat)) (buf : List Nat),
    (∀ j, (hj : j < pre.length) →
      parse (buf ++ (pre.take (j+1)).flatten) = .Partial) →
    dispatchAux parse (pre ++ [] :: rest) buf = .Failed .EarlyEof
  | [], rest, buf, _ => by simp [dispatchAux]
  | c :: pre, rest, buf, hp => by
    rw [List.cons_append, dispatchAux]
    by_cases hc : c.isEmpty
    · simp [hc]
    · simp only [hc, if_false]
      have h0 := hp 0 (by simp)
      simp only [List.take_succ_cons, List.take_zero, List.flatten_cons,
        List.flatten_nil, List.append_nil] at h0
      rw [h0]
      exact early_eof_aux parse pre rest (buf ++ c) (fun j hj => by
        have := hp (j+1) (by simpa using hj)
        simpa [List.append_assoc] using this)

/-- Anatomy of a successful run from any intermediate state: the consumed
chunks, the first-complete parse, the classification of the parsed head,
and the partial parses at every earlier read. -/
lemma classified_spec (parse : List Nat → ParseStatus) :
    ∀ (chunks : List (List Nat)) (buf bytes : List Nat) (ty : RequestType)
      (rest : List (List Nat)),
    dispatchAux parse chunks buf = .Classified ty bytes rest →
    ∃ consumed head,
      chunks = consumed ++ rest ∧ consumed ≠ [] ∧
      bytes = buf ++ consumed.flatten ∧
      parse bytes = .Complete head ∧ classify head = .ok ty ∧
      ∀ i, i + 1 < consumed.length →
        parse (buf ++ (consumed.take (i+1)).flatten) = .Partial
  | [], buf, bytes, ty, rest, h => by simp [dispatchAux] at h
  | c :: chunks, buf, bytes, ty, rest, h => by
    rw [dispatchAux] at h
    by_cases hc : c.isEmpty
    · rw [if_pos hc] at h; exact absurd h (by simp)
    · rw [if_neg hc] at h
      cases hparse : parse (buf ++ c) with
      | Error => rw [hparse] at h; exact absurd h (by simp)
      | Complete head =>
        rw [hparse] at h
        dsimp only at h
        cases hcl : classify head with
        | ok ty' =>
          rw [hcl] at h
          simp only [DispatchOutcome.Classified.injEq] at h
          obtain ⟨rfl, rfl, rfl⟩ := h
          exact ⟨[c], head, by simp, by simp, by simp, by simpa using hparse,
            hcl, by intro i hi; simp at hi⟩
        | error e => rw [hcl] at h; exact absurd h (by simp)
      | Partial =>
        rw [hparse] at h
        obtain ⟨consumed, head, hchunks, hcne, hbytes, hpb, hclh, hpart⟩ :=
          classified_spec parse chunks (buf ++ c) bytes ty rest h
        refine ⟨c :: consumed, head, by simp [hchunks], by simp,
          by simp [hbytes, List.append_assoc], hpb, hclh, ?_⟩
        intro i hi
        match i with
        | 0 => simpa using hparse
        | i + 1 =>
          have := hpart i (by simpa using hi)
          simpa [List.append_assoc] using this

/-- Alphabet round trip on one sextet. -/
lemma b64Val_b64Char : ∀ v, v < 64 → b64Val (b64Char v) = some v := by decide

/-- No alphabet character is the padding character. -/
lemma b64Char_ne_pad : ∀ v, v < 64 → b64Char v ≠ '=' := by decide

/-- The sextets of a byte stream are in range. -/
theorem mem_encodeSextets_lt :
    ∀ (x : List Nat), (∀ b ∈ x, b < 256) → ∀ v ∈ encodeSextets x, v < 64
  | [], _ => by simp [encodeSextets]
  | [b1], h => by
    have hb1 : b1 < 256 := h b1 (by simp)
    simp only [encodeSextets, List.mem_cons, List.mem_singleton,
      List.not_mem_nil, or_false]
    rintro v (rfl | rfl) <;> omega
  | [b1, b2], h => by
    have hb1 : b1 < 256 := h b1 (by simp)
    have hb2 : b2 < 256 := h b2 (by simp)
    simp only [encodeSextets, List.mem_cons, List.not_mem_nil, or_false]
    rintro v (rfl | rfl | rfl) <;> omega
  | b1 :: b2 :: b3 :: rest, h => by
    have hb1 : b1 < 256 := h b1 (by simp)
    have hb2 : b2 < 256 := h b2 (by simp)
    have hb3 : b3 < 256 := h b3 (by simp)
    have ih := mem_encodeSextets_lt rest (fun b hb => h b (by simp [hb]))
    simp only [encodeSextets, List.mem_cons]
    rintro v (rfl | rfl | rfl | rfl | hv)
    · omega
    · omega
    · omega
    · omega
    · exact ih v hv

/-- Decoding inverts encoding on the sextet streams. -/
theorem decodeSextets_encodeSextets :
    ∀ (x : List Nat), (∀ b ∈ x, b < 256) →
      decodeSextets (encodeSextets x) = .ok x
  | [], _ => rfl
  | [b1], h => by
    have hb1 : b1 < 256 := h b1 (by simp)
    simp only [encodeSextets, decodeSextets]
    rw [if_pos (by omega)]
    have : b1 / 4 * 4 + b1 % 4 * 16 / 16 = b1 := by omega
    rw [this]
  | [b1, b2], h => by
    have hb1 : b1 < 256 := h b1 (by simp)
    have hb2 : b2 < 256 := h b2 (by simp)
    simp only [encodeSextets, decodeSextets]
    rw [if_pos (by omega)]
    have e1 : b1 / 4 * 4 + (b1 % 4 * 16 + b2 / 16) / 16 = b1 := by omega
    have e2 : (b1 % 4 * 16 + b2 / 16) % 16 * 16 + b2 % 16 * 4 / 4 = b2 := by
      omega
    rw [e1, e2]
  | b1 :: b2 :: b3 :: rest, h => by
    have hb1 : b1 < 256 := h b1 (by simp)
    have hb2 : b2 < 256 := h b2 (by simp)
    have hb3 : b3 < 256 := h b3 (by simp)
    have ih := decodeSextets_encodeSextets rest (fun b hb => h b (by simp [hb]))
    rw [encodeSextets, decodeSextets, ih]
    have e1 : b1 / 4 * 4 + (b1 % 4 * 16 + b2 / 16) / 16 = b1 := by omega
    have e2 : (b1 % 4 * 16 + b2 / 16) % 16 * 16 + (b2 % 16 * 4 + b3 / 64) / 4
        = b2 := by omega
    have e3 : (b2 % 16 * 4 + b3 / 64) % 4 * 64 + b3 % 64 = b3 := by omega
    rw [e1, e2, e3]

/-- Character mapping inverts the alphabet on in-range sextets. -/
lemma mapVals_map_b64Char :
    ∀ (l : List Nat), (∀ v ∈ l, v < 64) → mapVals (l.map b64Char) = .ok l
  | [], _ => rfl
  | v :: vs, h => by
    have hv : v < 64 := h v (by simp)
    have ih := mapVals_map_b64Char vs (fun w hw => h w (by simp [hw]))
    rw [List.map_cons, mapVals, b64Val_b64Char v hv, ih]

/-- Stripping trailing padding is the identity on pad-free text. -/
lemma trimEq_of_no_pad (l : List Char) (h : '=' ∉ l) : trimEq l = l := by
  unfold trimEq
  cases hr : l.reverse with
  | nil =>
    simp only [List.dropWhile_nil]
    rw [← hr, List.reverse_reverse]
  | cons c cs =>
    have hc : c ∈ l := by
      rw [← List.reverse_reverse l, hr]; simp
    have : ¬(c = '=') := fun hce => h (hce ▸ hc)
    rw [List.dropWhile_cons_of_neg (by simpa using this), ← hr,
      List.reverse_reverse]

/-- `dropWhile` eats a leading run of padding characters. -/
lemma dropWhile_replicate_pad (k : Nat) (r : List Char) :
    (List.replicate k '=' ++ r).dropWhile (fun c => c = '=') =
      r.dropWhile (fun c => c = '=') := by
  induction k with
  | zero => simp
  | succ n ih =>
    rw [List.replicate_succ, List.cons_append,
      List.dropWhile_cons_of_pos (by simp), ih]

/-- Appended trailing padding is invisible to `trimEq`. -/
lemma trimEq_append_pad (l : List Char) (k : Nat) :
    trimEq (l ++ List.replicate k '=') = trimEq l := by
  unfold trimEq
  rw [List.reverse_append, List.reverse_replicate, dropWhile_replicate_pad]

/-! ## Claims -/

/-- C1: a notification built from a request derives its `message_id` by
encrypting `MessageId::WithTopic (uaid, channel_id, topic)` when the
parsed headers carry a topic, and `MessageId::WithoutTopic
(uaid, channel_id, sort_key_timestamp)` otherwise, where the timestamp
inside the identity is the millisecond `sort_key_timestamp` captured at
construction (the record's `sort_key_timestamp` field) and is independent
of the second-resolution `timestamp` field. -/
theorem generate_message_id_topic_selection (encrypt : MessageId → String)
    (subscription : Subscription) (headers : NotificationHeaders)
    (raw_data : List Nat) (ts ts2 skts : Nat) :
    (from_request_core encrypt subscription headers raw_data ts
        skts).sort_key_timestamp = skts ∧
    (∀ t, headers.topic = some t →
      (from_request_core encrypt subscription headers raw_data ts
          skts).message_id =
        encrypt (.WithTopic subscription.user_uaid subscription.channel_id
          t)) ∧
    (headers.topic = none →
      (from_request_core encrypt subscription headers raw_data ts
          skts).message_id =
        encrypt (.WithoutTopic subscription.user_uaid subscription.channel_id
          skts)) ∧
    (from_request_core encrypt subscription headers raw_data ts2
        skts).message_id =
      (from_request_core encrypt subscription headers raw_data ts
          skts).message_id := by
  refine ⟨rfl, ?_, ?_, rfl⟩
  · intro t ht
    simp [from_request_core, generate_message_id, ht]
  · intro ht
    simp [from_request_core, generate_message_id, ht]

/-- Witness for C1 at a concrete topic-free notification. -/
theorem generate_message_id_topic_selection_witness :
    (from_request_core demoEncrypt demoSub ⟨60, none, none⟩ [] 5 7).message_id =
      demoEncrypt (.WithoutTopic demoSub.user_uaid demoSub.channel_id 7) :=
  (generate_message_id_topic_selection demoEncrypt demoSub ⟨60, none, none⟩
    [] 5 9 7).2.2.1 rfl

/-- C2: when the buffered bytes parse as a complete request head with no
`Upgrade` header, the dispatcher classifies `/__heartbeat__` and
`/status`-prefixed paths as `Status`, `/__lbheartbeat__` as
`LBHeartBeat`, `/__version__` as `Version`, `/v1/err/crit`-prefixed
paths and `/__error__` as `LogCheck`, and fails with `UnknownRequest`
on every other path. -/
theorem dispatch_path_table (parse : List Nat → ParseStatus)
    (bytes : List Nat) (h : RequestHead) (p : String)
    (hne : bytes ≠ []) (hparse : parse bytes = .Complete h)
    (hup : hasUpgrade h = false) (hpath : h.path = some p) :
    ((starts_with p "/status" = true ∨ p = "/__heartbeat__") →
      dispatch parse [bytes] = .Classified .Status bytes []) ∧
    (p = "/__lbheartbeat__" →
      dispatch parse [bytes] = .Classified .LBHeartBeat bytes []) ∧
    (p = "/__version__" →
      dispatch parse [bytes] = .Classified .Version bytes []) ∧
    ((starts_with p "/v1/err/crit" = true ∨ p = "/__error__") →
      dispatch parse [bytes] = .Classified .LogCheck bytes []) ∧
    (starts_with p "/status" = false → p ≠ "/__heartbeat__" →
      p ≠ "/__lbheartbeat__" → p ≠ "/__version__" →
      starts_with p "/v1/err/crit" = false → p ≠ "/__error__" →
      dispatch parse [bytes] = .Failed .UnknownRequest) := by
  rw [dispatch_single parse bytes h hne hparse,
    classify_no_upgrade h p hup hpath]
  refine ⟨?_, ?_, ?_, ?_, ?_⟩
  · intro hcond
    rw [if_pos hcond]
  · rintro rfl
    rw [if_neg (by decide), if_pos rfl]
  · rintro rfl
    rw [if_neg (by decide), if_neg (by decide), if_pos rfl]
  · rintro (hv | rfl)
    · obtain ⟨h1, h2, h3, h4⟩ := v1_excludes p hv
      rw [if_neg (by simp [h1, h2]), if_neg h3, if_neg h4, if_pos hv]
    · rw [if_neg (by decide), if_neg (by decide), if_neg (by decide),
        if_neg (by decide), if_pos rfl]
  · intro h1 h2 h3 h4 h5 h6
    rw [if_neg (by simp [h1, h2]), if_neg h3, if_neg h4,
      if_neg (by simp [h5]), if_neg h6]

/-- Witness for C2 at the `/__lbheartbeat__` row of the table. -/
theorem dispatch_path_table_witness :
    dispatch (constParse ⟨some "/__lbheartbeat__", []⟩ 1) [[10]] =
      .Classified .LBHeartBeat [10] [] :=
  (dispatch_path_table (constParse ⟨some "/__lbheartbeat__", []⟩ 1) [10]
    ⟨some "/__lbheartbeat__", []⟩ "/__lbheartbeat__"
    (by decide) rfl rfl rfl).2.1 rfl

/-- C3: a complete request head containing a header named `Upgrade` is
classified `Websocket` regardless of its path — the `Upgrade` check
bypasses the path table. -/
theorem dispatch_upgrade_precedence (parse : List Nat → ParseStatus)
    (bytes : List Nat) (h : RequestHead)
    (hne : bytes ≠ []) (hparse : parse bytes = .Complete h)
    (hup : hasUpgrade h = true) :
    dispatch parse [bytes] = .Classified .Websocket bytes [] := by
  rw [dispatch_single parse bytes h hne hparse, classify, hup]
  simp

/-- Witness for C3: an `Upgrade` request whose path `/foo` would
otherwise be `UnknownRequest`. -/
theorem dispatch_upgrade_precedence_witness :
    dispatch (constParse ⟨some "/foo", [⟨"Upgrade", []⟩]⟩ 1) [[10]] =
      .Classified .Websocket [10] [] :=
  dispatch_upgrade_precedence (constParse ⟨some "/foo", [⟨"Upgrade", []⟩]⟩ 1)
    [10] ⟨some "/foo", [⟨"Upgrade", []⟩]⟩ (by decide) rfl (by decide)

/-- C4: the delivery serialization always carries exactly the keys
`channelID`, `version` (bound to `message_id`), `ttl`, `topic`,
`timestamp`, and carries `data` and `headers` exactly when the payload is
present. -/
theorem serialize_for_delivery_key_shape (n : Notification) (k : String) :
    (k ∈ deliveryKeys n ↔
      (k = "channelID" ∨ k = "version" ∨ k = "ttl" ∨ k = "topic" ∨
        k = "timestamp" ∨
        (n.data.isSome = true ∧ (k = "data" ∨ k = "headers")))) ∧
    ("version", .str n.message_id) ∈ n.serialize_for_delivery := by
  constructor
  · cases hd : n.data <;>
      simp [deliveryKeys, Notification.serialize_for_delivery, hd]
  · cases hd : n.data <;>
      simp [Notification.serialize_for_delivery, hd]

/-- C5: an empty request body yields `data = None`; a non-empty body
yields `data = Some (b64_encode_url body)`. -/
theorem from_request_data_encoding (encrypt : MessageId → String)
    (subscription : Subscription) (headers : NotificationHeaders)
    (raw_data : List Nat) (ts skts : Nat) :
    (raw_data = [] →
      (from_request_core encrypt subscription headers raw_data ts skts).data =
        none) ∧
    (raw_data ≠ [] →
      (from_request_core encrypt subscription headers raw_data ts skts).data =
        some (b64_encode_url raw_data)) := by
  constructor
  · rintro rfl; rfl
  · intro hne
    simp [from_request_core, hne]

/-- Witness for C5 at a concrete non-empty body. -/
theorem from_request_data_encoding_witness :
    (from_request_core demoEncrypt demoSub ⟨60, none, none⟩ [1, 2, 3]
        5 7).data =
      some (b64_encode_url [1, 2, 3]) :=
  (from_request_data_encoding demoEncrypt demoSub ⟨60, none, none⟩ [1, 2, 3]
    5 7).2 (by decide)

/-- C6: if a read returns zero bytes while every buffer accumulated so
far still parses as a partial head, the dispatcher terminates with the
`EarlyEof` failure (and hence never produces a classification). -/
theorem dispatch_early_eof (parse : List Nat → ParseStatus)
    (pre rest : List (List Nat))
    (hbuffering : ∀ j, (hj : j < pre.length) →
      parse ((pre.take (j+1)).flatten) = .Partial) :
    dispatch parse (pre ++ [] :: rest) = .Failed .EarlyEof := by
  exact early_eof_aux parse pre rest []
    (fun j hj => by simpa using hbuffering j hj)

/-- Witness for C6: one partial read then end-of-stream. -/
theorem dispatch_early_eof_witness :
    dispatch (constParse ⟨none, []⟩ 5) [[1], []] = .Failed .EarlyEof :=
  dispatch_early_eof (constParse ⟨none, []⟩ 5) [[1]] [] (by decide)

/-- C7: a successful run consumes a non-empty block of chunks, every
proper accumulation of which parses as partial (no intermediate
classification), and classifies exactly at the first complete parse,
with the classification agreeing with `classify` on the parsed head. -/
theorem dispatch_classifies_at_first_complete
    (parse : List Nat → ParseStatus) (chunks : List (List Nat))
    (bytes : List Nat) (ty : RequestType) (rest : List (List Nat))
    (hrun : dispatch parse chunks = .Classified ty bytes rest) :
    ∃ consumed head,
      chunks = consumed ++ rest ∧ consumed ≠ [] ∧
      bytes = consumed.flatten ∧
      parse bytes = .Complete head ∧ classify head = .ok ty ∧
      ∀ i, i + 1 < consumed.length →
        parse ((consumed.take (i+1)).flatten) = .Partial := by
  obtain ⟨consumed, head, hchunks, hcne, hbytes, hpb, hclh, hpart⟩ :=
    classified_spec parse chunks [] bytes ty rest hrun
  exact ⟨consumed, head, hchunks, hcne, by simpa using hbytes, hpb, hclh,
    fun i hi => by simpa using hpart i hi⟩

/-- Witness for C7: two partial single-byte reads, then the complete
parse classifying `/__version__`. -/
theorem dispatch_classifies_at_first_complete_witness :
    ∃ consumed head,
      ([[1], [2], [3]] : List (List Nat)) = consumed ++ [[3]] ∧
      consumed ≠ [] ∧
      ([1, 2] : List Nat) = consumed.flatten ∧
      constParse ⟨some "/__version__", []⟩ 2 [1, 2] = .Complete head ∧
      classify head = .ok .Version ∧
      ∀ i, i + 1 < consumed.length →
        constParse ⟨some "/__version__", []⟩ 2 ((consumed.take (i+1)).flatten)
          = .Partial :=
  dispatch_classifies_at_first_complete
    (constParse ⟨some "/__version__", []⟩ 2) [[1], [2], [3]] [1, 2]
    .Version [[3]] (by decide)

/-- C8: a successful classification hands downstream the entire byte
sequence read off the socket (the concatenation of every consumed
chunk), and the chunks after the iteration whose parse completed are
returned unread — no further socket read is issued. -/
theorem dispatch_handoff_buffer (parse : List Nat → ParseStatus)
    (chunks : List (List Nat)) (bytes : List Nat) (ty : RequestType)
    (rest : List (List Nat))
    (hrun : dispatch parse chunks = .Classified ty bytes rest) :
    ∃ consumed head,
      chunks = consumed ++ rest ∧ bytes = consumed.flatten ∧
      parse bytes = .Complete head ∧ classify head = .ok ty := by
  obtain ⟨consumed, head, hchunks, -, hbytes, hpb, hclh, -⟩ :=
    classified_spec parse chunks [] bytes ty rest hrun
  exact ⟨consumed, head, hchunks, by simpa using hbytes, hpb, hclh⟩

/-- Witness for C8: a `/status` request classified after two reads, with
one chunk left unread. -/
theorem dispatch_handoff_buffer_witness :
    ∃ consumed head,
      ([[7], [8], [9]] : List (List Nat)) = consumed ++ [[9]] ∧
      ([7, 8] : List Nat) = consumed.flatten ∧
      constParse ⟨some "/status/x", []⟩ 2 [7, 8] = .Complete head ∧
      classify head = .ok .Status :=
  dispatch_handoff_buffer (constParse ⟨some "/status/x", []⟩ 2)
    [[7], [8], [9]] [7, 8] .Status [[9]] (by decide)

/-- C9: the status mapping sends `LogCheck` to 418 (I'm a teapot) and
both `InvalidToken` and `InvalidMessageId` to 4xx client errors. -/
theorem api_error_status_mapping :
    ApiErrorKind.status .LogCheck = 418 ∧
    (400 ≤ ApiErrorKind.status .InvalidToken ∧
      ApiErrorKind.status .InvalidToken ≤ 499) ∧
    (400 ≤ ApiErrorKind.status .InvalidMessageId ∧
      ApiErrorKind.status .InvalidMessageId ≤ 499) := by
  decide

/-- C10: decoding inverts encoding on every byte vector, and appending
`'='` padding to any input never changes what `b64_decode_url` returns
(the decoder strips trailing `'='` first). -/
theorem b64_url_round_trip (x : List Nat) (s : String) (k : Nat)
    (hx : ∀ b ∈ x, b < 256) :
    b64_decode_url (b64_encode_url x) = .ok x ∧
    b64_decode_url (s ++ String.mk (List.replicate k '=')) =
      b64_decode_url s := by
  constructor
  · have hlt := mem_encodeSextets_lt x hx
    have hnp : '=' ∉ (encodeSextets x).map b64Char := by
      intro hmem
      obtain ⟨v, hv, hveq⟩ := List.mem_map.mp hmem
      exact b64Char_ne_pad v (hlt v hv) hveq
    show (match mapVals
        (trimEq (String.mk ((encodeSextets x).map b64Char)).data) with
      | .error e => .error e
      | .ok vs => decodeSextets vs) = Except.ok x
    rw [show (String.mk ((encodeSextets x).map b64Char)).data
        = (encodeSextets x).map b64Char from rfl]
    rw [trimEq_of_no_pad _ hnp, mapVals_map_b64Char _ hlt]
    exact decodeSextets_encodeSextets x hx
  · unfold b64_decode_url
    rw [show (s ++ String.mk (List.replicate k '=')).data
        = s.data ++ List.replicate k '=' by simp]
    rw [trimEq_append_pad]

/-- Witness for C10 at a concrete byte vector and a concrete padded
decode. -/
theorem b64_url_round_trip_witness :
    b64_decode_url (b64_encode_url [0, 77, 255]) = .ok [0, 77, 255] ∧
    b64_decode_url ("TWFu" ++ String.mk (List.replicate 2 '=')) =
      b64_decode_url "TWFu" :=
  b64_url_round_trip [0, 77, 255] "TWFu" 2 (by decide)
